import Mathlib

/-!
# Verification of `async_manager`

A shallow embedding of the `async_manager` Python package
(`src/async_manager/manager.py` and `src/async_manager/_facilitation.py`):
a registry of named capacity limiters (`AsyncManager`) together with an
adapter (`to_async`) that turns a blocking function into an awaitable call
optionally gated by a limiter.

The registry is a Python `dict[str, anyio.CapacityLimiter]`; we embed it as
an association list with the exact semantics of the `dict` operations used
by the source (`d[k] = v`, `d.pop(k, None)`, `d.get(k, None)`).

`anyio.CapacityLimiter` itself and `anyio.to_thread.run_sync` are external
collaborators (not part of this repository's sources), so their behaviour
is modelled from the specification: a bounded admission gate with a FIFO
wait queue, and a worker-pool dispatch that propagates the blocking
function's result or failure verbatim.
-/

set_option maxHeartbeats 1000000

namespace AsyncManagerModel

/-- The task phases of one adapter-gated call in the concurrency model:
a call is `pending` before it invokes `acquire`, `queued` while suspended
in the limiter's wait queue, `running` while admitted (holding a slot),
and `finished` after its release. -/
inductive Phase where
  | pending
  | queued
  | running
  | finished
deriving DecidableEq, Repr

/-- Modelled from the spec: `anyio.CapacityLimiter` (not under `src/`; the
repository uses it as an external collaborator).  Per spec section 4.1 it is
a bounded admission gate: `capacity` holders at most, `inFlight` currently
admitted holders, and a FIFO wait queue of suspended acquire requests
(waiting tasks are identified by natural-number ids). -/
structure CapacityLimiter where
  capacity : Nat
  inFlight : Nat
  waitQueue : List Nat
deriving DecidableEq, Repr

/-- Modelled from the spec (section 4.1): `acquire()` by task `t`.  If
`inFlight < capacity` the caller is admitted without suspension
(`inFlight` incremented, second component `true`); otherwise the task is
appended to the FIFO wait queue and suspends (second component `false`). -/
def acquire (l : CapacityLimiter) (t : Nat) : CapacityLimiter × Bool :=
  if l.inFlight < l.capacity then
    ({ l with inFlight := l.inFlight + 1 }, true)
  else
    ({ l with waitQueue := l.waitQueue ++ [t] }, false)

/-- Modelled from the spec (section 4.1): `release()`.  If the wait queue is
non-empty the freed slot is handed to the head waiter (slot transferred:
`inFlight` unchanged, the resumed task id is returned); otherwise
`inFlight` is decremented.  A release with `inFlight = 0` and no waiters is
the `ImbalancedReleaseError` programming error, embedded as `none`. -/
def release (l : CapacityLimiter) : Option (CapacityLimiter × Option Nat) :=
  match l.waitQueue with
  | u :: rest => some ({ l with waitQueue := rest }, some u)
  | [] =>
    if l.inFlight = 0 then none
    else some ({ l with inFlight := l.inFlight - 1 }, none)

/-- Python `d[k] = v` on an association list: replace the binding of `k` in
place if present, otherwise append the new binding. -/
def dictSet (d : List (String × CapacityLimiter)) (k : String) (v : CapacityLimiter) :
    List (String × CapacityLimiter) :=
  match d with
  | [] => [(k, v)]
  | (k', v') :: rest =>
    if k' = k then (k, v) :: rest else (k', v') :: dictSet rest k v

/-- Python `d.pop(k, None)`'s effect on the mapping: remove the binding of
`k` if present, otherwise leave the list unchanged. -/
def dictPop (d : List (String × CapacityLimiter)) (k : String) :
    List (String × CapacityLimiter) :=
  match d with
  | [] => []
  | (k', v') :: rest =>
    if k' = k then rest else (k', v') :: dictPop rest k

/-- Python `d.get(k, None)`: the value bound to `k`, or `none`. -/
def dictGet (d : List (String × CapacityLimiter)) (k : String) :
    Option CapacityLimiter :=
  match d with
  | [] => none
  | (k', v') :: rest =>
    if k' = k then some v' else dictGet rest k

/-- The keys of the registry are pairwise distinct (automatic for a Python
`dict`; an invariant of the association-list embedding). -/
def keysNodup (d : List (String × CapacityLimiter)) : Prop :=
  (d.map Prod.fst).Nodup

instance (d : List (String × CapacityLimiter)) : Decidable (keysNodup d) :=
  inferInstanceAs (Decidable (d.map Prod.fst).Nodup)

/-- `AsyncManager` from `src/async_manager/manager.py`: its only state is
the named-limiter store `self._limiter : dict[str, anyio.CapacityLimiter]`,
initialised empty by `__init__`. -/
structure AsyncManager where
  _limiter : List (String × CapacityLimiter)
deriving DecidableEq, Repr

/-- `AsyncManager.__init__`: `self._limiter = {}`. -/
def AsyncManager.init : AsyncManager := { _limiter := [] }

/-- `AsyncManager.regist_limiter(name, limiter)`:
`self._limiter[name] = limiter`. -/
def AsyncManager.regist_limiter (m : AsyncManager) (name : String)
    (limiter : CapacityLimiter) : AsyncManager :=
  { _limiter := dictSet m._limiter name limiter }

/-- `AsyncManager.unregist_limiter(name)`:
`self._limiter.pop(name, None)`. -/
def AsyncManager.unregist_limiter (m : AsyncManager) (name : String) : AsyncManager :=
  { _limiter := dictPop m._limiter name }

/-- `AsyncManager.get_limiter(name)`:
`return self._limiter.get(name, None)`. -/
def AsyncManager.get_limiter (m : AsyncManager) (name : String) :
    Option CapacityLimiter :=
  dictGet m._limiter name

/-- A registry mutation the body of a `create_limiter` scope may perform on
the manager (the only ways Python code can alter `self._limiter`). -/
inductive RegOp where
  | regist (name : String) (limiter : CapacityLimiter)
  | unregist (name : String)

/-- Apply one registry mutation. -/
def applyOp (m : AsyncManager) : RegOp → AsyncManager
  | .regist n l => m.regist_limiter n l
  | .unregist n => m.unregist_limiter n

/-- Apply a sequence of registry mutations in order. -/
def applyOps (ops : List RegOp) (m : AsyncManager) : AsyncManager :=
  ops.foldl applyOp m

/-- `AsyncManager.create_limiter(name, max_worker)` (a `@contextmanager`):
construct a fresh `anyio.CapacityLimiter(max_worker)`, register it under
`name`, run the caller's scope, and unregister `name` in the `finally`
block.  The scope body is embedded as the registry mutations it performs
(`bodyOps`) together with its outcome (`bodyResult`): `Except.ok` when the
body completes normally, `Except.error` when it raises; either way the
`finally` unregistration runs and the outcome is passed through. -/
def AsyncManager.create_limiter (m : AsyncManager) (name : String)
    (max_worker : Nat) (bodyOps : List RegOp) (bodyResult : Except E α) :
    Except E α × AsyncManager :=
  let limiter : CapacityLimiter := { capacity := max_worker, inFlight := 0, waitQueue := [] }
  let m1 := m.regist_limiter name limiter
  let m2 := applyOps bodyOps m1
  (bodyResult, m2.unregist_limiter name)

/-- The `limiter` argument of `AsyncManager.to_async`, at the values the
wrapper's `match` statement distinguishes: `none` (the default `None`), a
name string, a direct `anyio.CapacityLimiter` reference, or a value of any
other type (for example an integer), which Python's `case _` also absorbs. -/
inductive LimiterSelector where
  | none
  | name (s : String)
  | inst (l : CapacityLimiter)
  | invalid (k : Int)
deriving DecidableEq

/-- The failure of one wrapped call: either the `RuntimeError` raised by
the wrapper when a name selector is not registered (the spec's
`LimiterNotRegisteredError`; the message names the missing identifier,
embedded as the carried string), or the wrapped blocking function's own
error `e`, propagated with its payload intact. -/
inductive CallError (E : Type) where
  | limiterNotRegistered (name : String)
  | func (e : E)
deriving DecidableEq

/-- The `match limiter` statement inside the wrapper, run at every
invocation: a string is looked up with `get_limiter` and an unregistered
name raises (`Except.error` carrying the name); a `CapacityLimiter`
instance is used as-is; anything else (`case _`, covering `None` and
invalid values alike) yields no limiter. -/
def resolveLimiter (m : AsyncManager) :
    LimiterSelector → Except String (Option CapacityLimiter)
  | .name s =>
    match m.get_limiter s with
    | some l => .ok (some l)
    | Option.none => .error s
  | .inst l => .ok (some l)
  | _ => .ok Option.none

/-- Modelled from the spec: `anyio.to_thread.run_sync` (not under `src/`).
The worker pool runs the blocking function, whose behaviour is embedded as
its outcome `f : Except E T`, and reports its return value or its failure
verbatim to the awaiting caller. -/
def run_sync (f : Except E T) : Except (CallError E) T :=
  match f with
  | .ok v => .ok v
  | .error e => .error (.func e)

/-- What one invocation of a `to_async`-wrapped function observably does:
its result or failure, the effective limiter the dispatch was gated by
(`none` = default thread pool), and whether work was dispatched to the
worker pool at all. -/
structure CallOutcome (E T : Type) where
  result : Except (CallError E) T
  usedLimiter : Option CapacityLimiter
  dispatched : Bool

/-- One invocation of the `wrapper` produced by `AsyncManager.to_async`.
`sel` and `f` are captured at wrap time (the decorator's `limiter` argument
and the wrapped function, whose behaviour on the call's arguments is
`f : Except E T`); `m` is `self`'s registry state at invocation time, since
the wrapper resolves the selector anew inside every call.  If resolution
raises, the error surfaces at once and nothing is dispatched; otherwise the
call awaits `run_sync` gated by the resolved limiter. -/
def to_async_call (m : AsyncManager) (sel : LimiterSelector) (f : Except E T) :
    CallOutcome E T :=
  match resolveLimiter m sel with
  | .error s => { result := .error (.limiterNotRegistered s), usedLimiter := Option.none, dispatched := false }
  | .ok actual => { result := run_sync f, usedLimiter := actual, dispatched := true }

/-- `src/async_manager/_facilitation.py`: `module_manager = AsyncManager()`,
the process-wide shared instance. -/
def module_manager : AsyncManager := AsyncManager.init

/-- Module-level `regist_limiter = module_manager.regist_limiter`: the same
operation, acting on the shared instance's state `st`. -/
def mod_regist_limiter (st : AsyncManager) (name : String) (limiter : CapacityLimiter) :
    AsyncManager :=
  st.regist_limiter name limiter

/-- Module-level `unregist_limiter = module_manager.unregist_limiter`. -/
def mod_unregist_limiter (st : AsyncManager) (name : String) : AsyncManager :=
  st.unregist_limiter name

/-- Module-level `create_limiter = module_manager.create_limiter`. -/
def mod_create_limiter (st : AsyncManager) (name : String) (max_worker : Nat)
    (bodyOps : List RegOp) (bodyResult : Except E α) : Except E α × AsyncManager :=
  st.create_limiter name max_worker bodyOps bodyResult

/-- Module-level `to_async = module_manager.to_async`: a call through a
wrapper it produced reads the shared instance's state `st` at invocation
time. -/
def mod_to_async_call (st : AsyncManager) (sel : LimiterSelector) (f : Except E T) :
    CallOutcome E T :=
  to_async_call st sel f

/-- State of the concurrency model for claim C1: one limiter shared by a
set of adapter-gated calls (tasks), each identified by a natural number;
`phase t` is what task `t` is currently doing. -/
structure Sys where
  limiter : CapacityLimiter
  phase : Nat → Phase

/-- Task `t` enters the gated section of the wrapper: it calls `acquire`,
becoming `running` when admitted without suspension and `queued` when the
limiter is full. -/
def startTask (s : Sys) (t : Nat) : Sys :=
  let r := acquire s.limiter t
  { limiter := r.1
    phase := Function.update s.phase t (if r.2 then Phase.running else Phase.queued) }

/-- Task `t`'s blocking call completes on the worker pool (successfully or
with an error — the limiter path is identical) and the wrapper releases its
slot.  If a waiter was resumed by the release, that waiter becomes
`running`; the failing `release` case (`none`) cannot arise for a task that
actually holds a slot. -/
def finishTask (s : Sys) (t : Nat) : Option Sys :=
  match release s.limiter with
  | Option.none => Option.none
  | some (l2, some u) =>
    some { limiter := l2
           phase := Function.update (Function.update s.phase t Phase.finished) u Phase.running }
  | some (l2, Option.none) =>
    some { limiter := l2, phase := Function.update s.phase t Phase.finished }

/-- Interleaving semantics for `n` concurrent adapter-gated calls: any
not-yet-started task may call `acquire`, and any admitted task may complete
(with success or failure, `ok`) and release. -/
inductive Step (n : Nat) : Sys → Sys → Prop where
  | start {s : Sys} (t : Nat) (ht : t < n) (hp : s.phase t = Phase.pending) :
      Step n s (startTask s t)
  | finish {s s' : Sys} (t : Nat) (ok : Bool) (ht : t < n) (hp : s.phase t = Phase.running)
      (hf : finishTask s t = some s') : Step n s s'

/-- The initial state: a fresh limiter of capacity `C`
(`anyio.CapacityLimiter(C)`: no holders, empty wait queue), every task
still pending. -/
def initSys (C : Nat) : Sys :=
  { limiter := { capacity := C, inFlight := 0, waitQueue := [] }
    phase := fun _ => Phase.pending }

/-- States reachable by any interleaving of the `n` gated calls. -/
inductive Reachable (n C : Nat) : Sys → Prop where
  | init : Reachable n C (initSys C)
  | step {s s' : Sys} : Reachable n C s → Step n s s' → Reachable n C s'

/-- The number of tasks currently admitted (running) among tasks `< n`. -/
def runningCount (n : Nat) (ph : Nat → Phase) : Nat :=
  ((Finset.range n).filter (fun t => ph t = Phase.running)).card

/-- The inductive invariant of the concurrency model: the limiter's
capacity is constant, `inFlight` counts exactly the admitted tasks, never
exceeds the capacity, and the wait queue lists distinct queued tasks. -/
def SysInv (n C : Nat) (s : Sys) : Prop :=
  s.limiter.capacity = C ∧
  s.limiter.inFlight = runningCount n s.phase ∧
  s.limiter.inFlight ≤ C ∧
  s.limiter.waitQueue.Nodup ∧
  (∀ t ∈ s.limiter.waitQueue, t < n ∧ s.phase t = Phase.queued)

/-! ## Association-list lemmas (the Python `dict` semantics) -/

theorem dictGet_dictSet_self : ∀ (d : List (String × CapacityLimiter)) (k : String)
    (v : CapacityLimiter), dictGet (dictSet d k v) k = some v
  | [], k, v => by simp [dictSet, dictGet]
  | (k', v') :: rest, k, v => by
    by_cases h : k' = k
    · simp [dictSet, dictGet, h]
    · simp [dictSet, dictGet, h, dictGet_dictSet_self rest k v]

theorem dictGet_dictSet_ne : ∀ (d : List (String × CapacityLimiter)) (k k2 : String)
    (v : CapacityLimiter), k2 ≠ k → dictGet (dictSet d k v) k2 = dictGet d k2
  | [], k, k2, v, h => by
    have h' : ¬(k = k2) := fun e => h (Eq.symm e)
    simp [dictSet, dictGet, h']
  | (k', v') :: rest, k, k2, v, h => by
    by_cases hk : k' = k
    · subst hk
      have h' : ¬(k' = k2) := fun e => h (Eq.symm e)
      simp [dictSet, dictGet, h']
    · by_cases hk2 : k' = k2
      · subst hk2
        simp [dictSet, dictGet, hk]
      · simp [dictSet, dictGet, hk, hk2, dictGet_dictSet_ne rest k k2 v h]

theorem mem_keys_dictSet : ∀ (d : List (String × CapacityLimiter)) (k x : String)
    (v : CapacityLimiter), x ∈ (dictSet d k v).map Prod.fst →
    x ∈ d.map Prod.fst ∨ x = k
  | [], k, x, v, hx => by
    simp only [dictSet, List.map_cons, List.map_nil, List.mem_singleton] at hx
    exact Or.inr hx
  | (k', v') :: rest, k, x, v, hx => by
    by_cases hk : k' = k
    · subst hk
      simp only [dictSet, eq_self_iff_true, if_true, List.map_cons, List.mem_cons] at hx
      rcases hx with h | h
      · exact Or.inr h
      · exact Or.inl (by simp only [List.map_cons, List.mem_cons]; exact Or.inr h)
    · simp only [dictSet, hk, if_false, List.map_cons, List.mem_cons] at hx
      rcases hx with h | h
      · exact Or.inl (by simp only [List.map_cons, List.mem_cons]; exact Or.inl h)
      · rcases mem_keys_dictSet rest k x v h with h2 | h2
        · exact Or.inl (by simp only [List.map_cons, List.mem_cons]; exact Or.inr h2)
        · exact Or.inr h2

theorem keysNodup_dictSet : ∀ (d : List (String × CapacityLimiter)) (k : String)
    (v : CapacityLimiter), keysNodup d → keysNodup (dictSet d k v)
  | [], k, v, _ => by simp [keysNodup, dictSet]
  | (k', v') :: rest, k, v, h => by
    simp only [keysNodup, List.map_cons, List.nodup_cons] at h
    by_cases hk : k' = k
    · subst hk
      simpa [keysNodup, dictSet] using h
    · have ih := keysNodup_dictSet rest k v h.2
      simp only [keysNodup, dictSet, hk, if_false, List.map_cons, List.nodup_cons]
      refine ⟨fun hmem => ?_, ih⟩
      rcases mem_keys_dictSet rest k k' v hmem with h2 | h2
      · exact h.1 h2
      · exact hk h2

theorem dictGet_eq_none_of_not_mem : ∀ (d : List (String × CapacityLimiter)) (k : String),
    k ∉ d.map Prod.fst → dictGet d k = Option.none
  | [], _, _ => rfl
  | (k', v') :: rest, k, h => by
    simp only [List.map_cons, List.mem_cons] at h
    push_neg at h
    have h' : ¬(k' = k) := fun e => h.1 (Eq.symm e)
    simp [dictGet, h', dictGet_eq_none_of_not_mem rest k h.2]

theorem not_mem_of_dictGet_eq_none : ∀ (d : List (String × CapacityLimiter)) (k : String),
    dictGet d k = Option.none → k ∉ d.map Prod.fst
  | [], _, _ => by simp
  | (k', v') :: rest, k, h => by
    by_cases hk : k' = k
    · simp [dictGet, hk] at h
    · simp only [dictGet, hk, if_false] at h
      simp only [List.map_cons, List.mem_cons]
      push_neg
      exact ⟨fun e => hk e.symm, not_mem_of_dictGet_eq_none rest k h⟩

theorem dictPop_sublist : ∀ (d : List (String × CapacityLimiter)) (k : String),
    (dictPop d k).Sublist d
  | [], _ => List.Sublist.refl _
  | (k', v') :: rest, k => by
    by_cases hk : k' = k
    · subst hk
      simp only [dictPop, eq_self_iff_true, if_true]
      exact List.sublist_cons_self (k', v') rest
    · simpa [dictPop, hk] using List.Sublist.cons₂ (k', v') (dictPop_sublist rest k)

theorem keysNodup_dictPop (d : List (String × CapacityLimiter)) (k : String)
    (h : keysNodup d) : keysNodup (dictPop d k) :=
  h.sublist ((dictPop_sublist d k).map Prod.fst)

theorem dictGet_dictPop_self : ∀ (d : List (String × CapacityLimiter)) (k : String),
    keysNodup d → dictGet (dictPop d k) k = Option.none
  | [], _, _ => rfl
  | (k', v') :: rest, k, h => by
    simp only [keysNodup, List.map_cons, List.nodup_cons] at h
    by_cases hk : k' = k
    · subst hk
      simp only [dictPop, if_pos rfl]
      exact dictGet_eq_none_of_not_mem rest k' h.1
    · simp [dictPop, dictGet, hk, dictGet_dictPop_self rest k h.2]

theorem dictPop_eq_self_of_none : ∀ (d : List (String × CapacityLimiter)) (k : String),
    dictGet d k = Option.none → dictPop d k = d
  | [], _, _ => rfl
  | (k', v') :: rest, k, h => by
    by_cases hk : k' = k
    · simp [dictGet, hk] at h
    · simp only [dictGet, hk, if_false] at h
      simp [dictPop, hk, dictPop_eq_self_of_none rest k h]

/-! ## Registry-level lemmas -/

theorem keysNodup_applyOp (m : AsyncManager) (op : RegOp)
    (h : keysNodup m._limiter) : keysNodup (applyOp m op)._limiter := by
  cases op with
  | regist n l => exact keysNodup_dictSet _ n l h
  | unregist n => exact keysNodup_dictPop _ n h

theorem keysNodup_applyOps : ∀ (ops : List RegOp) (m : AsyncManager),
    keysNodup m._limiter → keysNodup (applyOps ops m)._limiter
  | [], _, h => h
  | op :: ops, m, h =>
    keysNodup_applyOps ops (applyOp m op) (keysNodup_applyOp m op h)

theorem get_limiter_create_limiter_snd (m : AsyncManager) (name : String)
    (max_worker : Nat) (ops : List RegOp) {E α : Type} (r : Except E α)
    (h : keysNodup m._limiter) :
    ((m.create_limiter name max_worker ops r).2).get_limiter name = Option.none := by
  have h1 : keysNodup (m.regist_limiter name
      { capacity := max_worker, inFlight := 0, waitQueue := [] })._limiter :=
    keysNodup_dictSet _ name _ h
  have h2 := keysNodup_applyOps ops _ h1
  exact dictGet_dictPop_self _ name h2

/-! ## Counting lemmas for the concurrency model -/

theorem runningCount_update_to_running (n t : Nat) (ph : Nat → Phase)
    (ht : t < n) (h : ph t ≠ Phase.running) :
    runningCount n (Function.update ph t Phase.running) = runningCount n ph + 1 := by
  unfold runningCount
  have hset : (Finset.range n).filter
        (fun x => Function.update ph t Phase.running x = Phase.running)
      = insert t ((Finset.range n).filter (fun x => ph x = Phase.running)) := by
    ext x
    by_cases hx : x = t
    · subst hx
      simp [Function.update_same, Finset.mem_insert, Finset.mem_filter, Finset.mem_range, ht]
    · simp [Function.update_noteq hx, Finset.mem_insert, Finset.mem_filter, hx]
  rw [hset, Finset.card_insert_of_not_mem (by simp [Finset.mem_filter, h])]

theorem runningCount_update_not_running (n t : Nat) (v : Phase) (ph : Nat → Phase)
    (hv : v ≠ Phase.running) (h : ph t ≠ Phase.running) :
    runningCount n (Function.update ph t v) = runningCount n ph := by
  unfold runningCount
  congr 1
  ext x
  by_cases hx : x = t
  · subst hx
    simp [Function.update_same, Finset.mem_filter, h, hv]
  · simp [Function.update_noteq hx, Finset.mem_filter]

theorem runningCount_update_from_running (n t : Nat) (v : Phase) (ph : Nat → Phase)
    (ht : t < n) (h : ph t = Phase.running) (hv : v ≠ Phase.running) :
    runningCount n (Function.update ph t v) + 1 = runningCount n ph := by
  unfold runningCount
  have hset : (Finset.range n).filter (fun x => ph x = Phase.running)
      = insert t ((Finset.range n).filter
          (fun x => Function.update ph t v x = Phase.running)) := by
    ext x
    by_cases hx : x = t
    · subst hx
      simp [Finset.mem_insert, Finset.mem_filter, Finset.mem_range, ht, h]
    · simp [Function.update_noteq hx, Finset.mem_insert, Finset.mem_filter, hx]
  rw [hset,
    Finset.card_insert_of_not_mem (by simp [Finset.mem_filter, Function.update_same, hv])]

theorem runningCount_transfer (n t u : Nat) (ph : Nat → Phase) (ht : t < n) (hu : u < n)
    (hne : u ≠ t) (hpt : ph t = Phase.running) (hpu : ph u ≠ Phase.running) :
    runningCount n (Function.update (Function.update ph t Phase.finished) u Phase.running)
      = runningCount n ph := by
  have h1 : (Function.update ph t Phase.finished) u ≠ Phase.running := by
    rw [Function.update_noteq hne]
    exact hpu
  rw [runningCount_update_to_running n u _ hu h1]
  exact runningCount_update_from_running n t Phase.finished ph ht hpt (by decide)

/-! ## The inductive invariant of the concurrency model -/

theorem sysInv_init (n C : Nat) : SysInv n C (initSys C) := by
  refine ⟨rfl, ?_, Nat.zero_le C, List.nodup_nil, ?_⟩
  · simp [initSys, runningCount]
  · intro t htmem
    simp [initSys] at htmem

theorem sysInv_step {n C : Nat} {s s2 : Sys} (hinv : SysInv n C s) (hs : Step n s s2) :
    SysInv n C s2 := by
  obtain ⟨hcap, hcount, hle, hnod, hq⟩ := hinv
  cases hs with
  | start t ht hp =>
    have hrun : s.phase t ≠ Phase.running := by rw [hp]; decide
    by_cases hlt : s.limiter.inFlight < s.limiter.capacity
    · have hst : startTask s t =
          { limiter := { s.limiter with inFlight := s.limiter.inFlight + 1 }
            phase := Function.update s.phase t Phase.running } := by
        simp [startTask, acquire, hlt]
      rw [hst]
      refine ⟨hcap, ?_, ?_, hnod, ?_⟩
      · show s.limiter.inFlight + 1 = runningCount n (Function.update s.phase t Phase.running)
        rw [runningCount_update_to_running n t s.phase ht hrun, hcount]
      · show s.limiter.inFlight + 1 ≤ C
        rw [hcap] at hlt
        omega
      · show ∀ x ∈ s.limiter.waitQueue,
          x < n ∧ Function.update s.phase t Phase.running x = Phase.queued
        intro x hx
        obtain ⟨hxn, hxq⟩ := hq x hx
        have hxt : x ≠ t := fun e => by
          rw [e, hp] at hxq
          exact absurd hxq (by decide)
        exact ⟨hxn, by rw [Function.update_noteq hxt]; exact hxq⟩
    · have hst : startTask s t =
          { limiter := { s.limiter with waitQueue := s.limiter.waitQueue ++ [t] }
            phase := Function.update s.phase t Phase.queued } := by
        simp [startTask, acquire, hlt]
      rw [hst]
      have htq : t ∉ s.limiter.waitQueue := by
        intro hmem
        obtain ⟨_, hq2⟩ := hq t hmem
        rw [hp] at hq2
        exact absurd hq2 (by decide)
      refine ⟨hcap, ?_, hle, ?_, ?_⟩
      · show s.limiter.inFlight = runningCount n (Function.update s.phase t Phase.queued)
        rw [runningCount_update_not_running n t Phase.queued s.phase (by decide) hrun]
        exact hcount
      · show (s.limiter.waitQueue ++ [t]).Nodup
        rw [List.nodup_append]
        refine ⟨hnod, List.nodup_singleton t, ?_⟩
        intro a ha hb
        simp only [List.mem_singleton] at hb
        subst hb
        exact htq ha
      · show ∀ x ∈ s.limiter.waitQueue ++ [t],
          x < n ∧ Function.update s.phase t Phase.queued x = Phase.queued
        intro x hx
        rw [List.mem_append] at hx
        rcases hx with hx | hx
        · obtain ⟨hxn, hxq⟩ := hq x hx
          have hxt : x ≠ t := fun e => by
            rw [e] at hx
            exact htq hx
          exact ⟨hxn, by rw [Function.update_noteq hxt]; exact hxq⟩
        · simp only [List.mem_singleton] at hx
          subst hx
          exact ⟨ht, by rw [Function.update_same]⟩
  | finish t ok ht hp hf =>
    cases hqcase : s.limiter.waitQueue with
    | nil =>
      have hpos : 0 < runningCount n s.phase :=
        Finset.card_pos.mpr ⟨t, by simp [Finset.mem_filter, Finset.mem_range, ht, hp]⟩
      have hnz : ¬(s.limiter.inFlight = 0) := by
        rw [hcount]
        omega
      have hrel : release s.limiter =
          some ({ s.limiter with inFlight := s.limiter.inFlight - 1 }, Option.none) := by
        simp [release, hqcase, hnz]
      have hft : finishTask s t =
          some { limiter := { s.limiter with inFlight := s.limiter.inFlight - 1 }
                 phase := Function.update s.phase t Phase.finished } := by
        simp [finishTask, hrel]
      rw [hft] at hf
      injection hf with hf
      subst hf
      refine ⟨hcap, ?_, ?_, ?_, ?_⟩
      · show s.limiter.inFlight - 1 = runningCount n (Function.update s.phase t Phase.finished)
        have h2 := runningCount_update_from_running n t Phase.finished s.phase ht hp (by decide)
        omega
      · show s.limiter.inFlight - 1 ≤ C
        omega
      · show s.limiter.waitQueue.Nodup
        exact hnod
      · show ∀ x ∈ s.limiter.waitQueue,
          x < n ∧ Function.update s.phase t Phase.finished x = Phase.queued
        intro x hx
        rw [hqcase] at hx
        simp at hx
    | cons u rest =>
      have hrel : release s.limiter = some ({ s.limiter with waitQueue := rest }, some u) := by
        simp [release, hqcase]
      have hft : finishTask s t =
          some { limiter := { s.limiter with waitQueue := rest }
                 phase := Function.update (Function.update s.phase t Phase.finished)
                   u Phase.running } := by
        simp [finishTask, hrel]
      rw [hft] at hf
      injection hf with hf
      subst hf
      have humem : u ∈ s.limiter.waitQueue := by
        rw [hqcase]
        exact List.mem_cons_self u rest
      obtain ⟨hun, huq⟩ := hq u humem
      have hut : u ≠ t := fun e => by
        rw [e, hp] at huq
        exact absurd huq (by decide)
      refine ⟨hcap, ?_, hle, ?_, ?_⟩
      · show s.limiter.inFlight = runningCount n
          (Function.update (Function.update s.phase t Phase.finished) u Phase.running)
        rw [runningCount_transfer n t u s.phase ht hun hut hp (by rw [huq]; decide)]
        exact hcount
      · show rest.Nodup
        rw [hqcase] at hnod
        exact hnod.of_cons
      · show ∀ x ∈ rest, x < n ∧
          Function.update (Function.update s.phase t Phase.finished) u Phase.running x
            = Phase.queued
        intro x hx
        have hxq : x ∈ s.limiter.waitQueue := by
          rw [hqcase]
          exact List.mem_cons_of_mem u hx
        obtain ⟨hxn, hxph⟩ := hq x hxq
        have hxt : x ≠ t := fun e => by
          rw [e, hp] at hxph
          exact absurd hxph (by decide)
        have hxu : x ≠ u := by
          intro e
          rw [hqcase] at hnod
          exact (List.nodup_cons.mp hnod).1 (e ▸ hx)
        refine ⟨hxn, ?_⟩
        rw [Function.update_noteq hxu, Function.update_noteq hxt]
        exact hxph

theorem reachable_sysInv {n C : Nat} {s : Sys} (h : Reachable n C s) : SysInv n C s := by
  induction h with
  | init => exact sysInv_init n C
  | step hr hstep ih => exact sysInv_step ih hstep

theorem sysInv_final {n C : Nat} {s : Sys} (hinv : SysInv n C s)
    (hfin : ∀ t, t < n → s.phase t = Phase.finished) :
    s.limiter.inFlight = 0 ∧ s.limiter.waitQueue = [] := by
  obtain ⟨hcap, hcount, hle, hnod, hq⟩ := hinv
  constructor
  · rw [hcount]
    unfold runningCount
    rw [Finset.card_eq_zero, Finset.filter_eq_empty_iff]
    intro x hx
    rw [Finset.mem_range] at hx
    rw [hfin x hx]
    decide
  · cases hq2 : s.limiter.waitQueue with
    | nil => rfl
    | cons u rest =>
      obtain ⟨hun, huq⟩ := hq u (by rw [hq2]; exact List.mem_cons_self u rest)
      rw [hfin u hun] at huq
      exact absurd huq (by decide)

/-! ## Claim theorems -/

/-- C1: for every limiter of capacity `C ≥ 1`, an `acquire` below capacity
is admitted without suspension, the `(C+1)`-th concurrent acquire on a full
limiter suspends (is enqueued, `inFlight` unchanged) until a release hands
the freed slot to the head waiter; and along any interleaving of `n`
concurrent adapter-gated calls (each succeeding or failing), `inFlight`
never exceeds `C` and is `0` with an empty wait queue once all `n` calls
have finished. -/
theorem C1_limiter_capacity_gating (n C : Nat) (_hC : 1 ≤ C) :
    (∀ (l : CapacityLimiter) (t : Nat), l.inFlight < l.capacity →
      (acquire l t).2 = true ∧ (acquire l t).1.inFlight = l.inFlight + 1) ∧
    (∀ (l : CapacityLimiter) (t : Nat), l.capacity = C → l.inFlight = C →
      (acquire l t).2 = false ∧ (acquire l t).1.waitQueue = l.waitQueue ++ [t] ∧
      (acquire l t).1.inFlight = l.inFlight) ∧
    (∀ (l : CapacityLimiter) (u : Nat) (rest : List Nat), l.waitQueue = u :: rest →
      release l = some ({ l with waitQueue := rest }, some u)) ∧
    (∀ s : Sys, Reachable n C s →
      s.limiter.inFlight ≤ C ∧
      ((∀ t, t < n → s.phase t = Phase.finished) →
        s.limiter.inFlight = 0 ∧ s.limiter.waitQueue = [])) := by
  refine ⟨?_, ?_, ?_, ?_⟩
  · intro l t h
    simp [acquire, h]
  · intro l t hcap hfull
    have hnlt : ¬(l.inFlight < l.capacity) := by omega
    simp [acquire, hnlt]
  · intro l u rest hqr
    simp [release, hqr]
  · intro s hr
    have hinv := reachable_sysInv hr
    exact ⟨hinv.2.2.1, sysInv_final hinv⟩

theorem C1_limiter_capacity_gating_witness :
    1 ≤ 1 ∧
    ((∀ (l : CapacityLimiter) (t : Nat), l.inFlight < l.capacity →
      (acquire l t).2 = true ∧ (acquire l t).1.inFlight = l.inFlight + 1) ∧
    (∀ (l : CapacityLimiter) (t : Nat), l.capacity = 1 → l.inFlight = 1 →
      (acquire l t).2 = false ∧ (acquire l t).1.waitQueue = l.waitQueue ++ [t] ∧
      (acquire l t).1.inFlight = l.inFlight) ∧
    (∀ (l : CapacityLimiter) (u : Nat) (rest : List Nat), l.waitQueue = u :: rest →
      release l = some ({ l with waitQueue := rest }, some u)) ∧
    (∀ s : Sys, Reachable 2 1 s →
      s.limiter.inFlight ≤ 1 ∧
      ((∀ t, t < 2 → s.phase t = Phase.finished) →
        s.limiter.inFlight = 0 ∧ s.limiter.waitQueue = []))) :=
  ⟨by decide, C1_limiter_capacity_gating 2 1 (by decide)⟩

/-- C2: after a `create_limiter(name, capacity)` scope exits — whether the
body completed normally (`Except.ok`) or raised (`Except.error`), and
whatever registry mutations the body performed — `get_limiter name`
returns the absent value. -/
theorem C2_create_limiter_scope_cleanup (m : AsyncManager) (name : String)
    (max_worker : Nat) (ops : List RegOp) {E α : Type} (r : Except E α)
    (h : keysNodup m._limiter) :
    ((m.create_limiter name max_worker ops r).2).get_limiter name = Option.none :=
  get_limiter_create_limiter_snd m name max_worker ops r h

theorem C2_create_limiter_scope_cleanup_witness :
    keysNodup (AsyncManager.mk [])._limiter ∧
    (((AsyncManager.mk []).create_limiter "x" 4 []
        (Except.error "boom" : Except String Nat)).2).get_limiter "x" = Option.none :=
  ⟨by decide,
    C2_create_limiter_scope_cleanup (AsyncManager.mk []) "x" 4 []
      (Except.error "boom") (by decide)⟩

/-- C3: a wrapper created with a name selector resolves the name against
the registry at each invocation: while the name is unregistered the call
fails (with the error naming the identifier, nothing dispatched), and after
`regist_limiter(name, l)` the very same wrapper succeeds, gated by the
limiter registered at invocation time. -/
theorem C3_name_resolution_is_live (m : AsyncManager) (x : String)
    (l : CapacityLimiter) {E T : Type} (f : Except E T)
    (h : m.get_limiter x = Option.none) :
    (to_async_call m (LimiterSelector.name x) f).result
      = Except.error (CallError.limiterNotRegistered x) ∧
    (to_async_call m (LimiterSelector.name x) f).dispatched = false ∧
    (to_async_call (m.regist_limiter x l) (LimiterSelector.name x) f).usedLimiter = some l ∧
    (to_async_call (m.regist_limiter x l) (LimiterSelector.name x) f).dispatched = true ∧
    (to_async_call (m.regist_limiter x l) (LimiterSelector.name x) f).result = run_sync f := by
  have hreg : (m.regist_limiter x l).get_limiter x = some l :=
    dictGet_dictSet_self m._limiter x l
  refine ⟨?_, ?_, ?_, ?_, ?_⟩ <;>
    simp [to_async_call, resolveLimiter, h, hreg]

theorem C3_name_resolution_is_live_witness :
    (AsyncManager.mk []).get_limiter "x" = Option.none ∧
    ((to_async_call (AsyncManager.mk []) (LimiterSelector.name "x")
        (Except.ok 7 : Except String Nat)).result
      = Except.error (CallError.limiterNotRegistered "x") ∧
    (to_async_call (AsyncManager.mk []) (LimiterSelector.name "x")
        (Except.ok 7 : Except String Nat)).dispatched = false ∧
    (to_async_call ((AsyncManager.mk []).regist_limiter "x"
        (CapacityLimiter.mk 3 0 [])) (LimiterSelector.name "x")
        (Except.ok 7 : Except String Nat)).usedLimiter = some (CapacityLimiter.mk 3 0 []) ∧
    (to_async_call ((AsyncManager.mk []).regist_limiter "x"
        (CapacityLimiter.mk 3 0 [])) (LimiterSelector.name "x")
        (Except.ok 7 : Except String Nat)).dispatched = true ∧
    (to_async_call ((AsyncManager.mk []).regist_limiter "x"
        (CapacityLimiter.mk 3 0 [])) (LimiterSelector.name "x")
        (Except.ok 7 : Except String Nat)).result
      = run_sync (Except.ok 7 : Except String Nat)) :=
  ⟨rfl,
    C3_name_resolution_is_live (AsyncManager.mk []) "x" (CapacityLimiter.mk 3 0 [])
      (Except.ok 7) rfl⟩

/-- C4: calling a name-selector wrapper while the name is not registered
fails immediately with the not-registered error carrying the missing
identifier, and dispatches no work to the worker pool. -/
theorem C4_unregistered_name_fails_without_dispatch (m : AsyncManager) (x : String)
    {E T : Type} (f : Except E T) (h : m.get_limiter x = Option.none) :
    to_async_call m (LimiterSelector.name x) f =
      { result := Except.error (CallError.limiterNotRegistered x)
        usedLimiter := Option.none
        dispatched := false } := by
  simp [to_async_call, resolveLimiter, h]

theorem C4_unregistered_name_fails_without_dispatch_witness :
    (AsyncManager.mk []).get_limiter "docker" = Option.none ∧
    to_async_call (AsyncManager.mk []) (LimiterSelector.name "docker")
        (Except.ok 0 : Except String Nat) =
      { result := Except.error (CallError.limiterNotRegistered "docker")
        usedLimiter := Option.none
        dispatched := false } :=
  ⟨rfl,
    C4_unregistered_name_fails_without_dispatch (AsyncManager.mk []) "docker"
      (Except.ok 0) rfl⟩

/-- C5: when the wrapped blocking function fails with error `e`, the
wrapped async call's failure carries exactly `e` — same kind and payload,
not swallowed or reclassified — on the no-limiter path, the direct-instance
path, and the registered-name path alike. -/
theorem C5_failure_propagated_verbatim (m : AsyncManager) (x : String)
    (l : CapacityLimiter) {E T : Type} (e : E)
    (h : m.get_limiter x = some l) :
    (to_async_call m LimiterSelector.none (Except.error e : Except E T)).result
      = Except.error (CallError.func e) ∧
    (to_async_call m (LimiterSelector.inst l) (Except.error e : Except E T)).result
      = Except.error (CallError.func e) ∧
    (to_async_call m (LimiterSelector.name x) (Except.error e : Except E T)).result
      = Except.error (CallError.func e) := by
  refine ⟨?_, ?_, ?_⟩ <;>
    simp [to_async_call, resolveLimiter, run_sync, h]

theorem C5_failure_propagated_verbatim_witness :
    (AsyncManager.mk [("x", CapacityLimiter.mk 2 0 [])]).get_limiter "x"
      = some (CapacityLimiter.mk 2 0 []) ∧
    ((to_async_call (AsyncManager.mk [("x", CapacityLimiter.mk 2 0 [])])
        LimiterSelector.none (Except.error "E" : Except String Nat)).result
      = Except.error (CallError.func "E") ∧
    (to_async_call (AsyncManager.mk [("x", CapacityLimiter.mk 2 0 [])])
        (LimiterSelector.inst (CapacityLimiter.mk 2 0 []))
        (Except.error "E" : Except String Nat)).result
      = Except.error (CallError.func "E") ∧
    (to_async_call (AsyncManager.mk [("x", CapacityLimiter.mk 2 0 [])])
        (LimiterSelector.name "x") (Except.error "E" : Except String Nat)).result
      = Except.error (CallError.func "E")) :=
  ⟨by decide,
    C5_failure_propagated_verbatim (AsyncManager.mk [("x", CapacityLimiter.mk 2 0 [])])
      "x" (CapacityLimiter.mk 2 0 []) "E" (by decide)⟩

/-- C6: `regist_limiter(name, limiter)` inserts the mapping when the name
is new and replaces the previous association when it exists (lookup at
`name` afterwards is the new limiter, other names are untouched), it is a
total operation, and it keeps the registry's keys pairwise distinct (at
most one limiter per name). -/
theorem C6_regist_limiter_insert_or_replace (m : AsyncManager) (name k : String)
    (l : CapacityLimiter) (hk : k ≠ name) (h : keysNodup m._limiter) :
    (m.regist_limiter name l).get_limiter name = some l ∧
    (m.regist_limiter name l).get_limiter k = m.get_limiter k ∧
    keysNodup (m.regist_limiter name l)._limiter :=
  ⟨dictGet_dictSet_self m._limiter name l,
    dictGet_dictSet_ne m._limiter name k l hk,
    keysNodup_dictSet m._limiter name l h⟩

theorem C6_regist_limiter_insert_or_replace_witness :
    "b" ≠ "a" ∧
    keysNodup (AsyncManager.mk [("a", CapacityLimiter.mk 1 0 []),
      ("b", CapacityLimiter.mk 2 0 [])])._limiter ∧
    (((AsyncManager.mk [("a", CapacityLimiter.mk 1 0 []),
        ("b", CapacityLimiter.mk 2 0 [])]).regist_limiter "a"
        (CapacityLimiter.mk 9 0 [])).get_limiter "a" = some (CapacityLimiter.mk 9 0 []) ∧
    ((AsyncManager.mk [("a", CapacityLimiter.mk 1 0 []),
        ("b", CapacityLimiter.mk 2 0 [])]).regist_limiter "a"
        (CapacityLimiter.mk 9 0 [])).get_limiter "b"
      = (AsyncManager.mk [("a", CapacityLimiter.mk 1 0 []),
        ("b", CapacityLimiter.mk 2 0 [])]).get_limiter "b" ∧
    keysNodup ((AsyncManager.mk [("a", CapacityLimiter.mk 1 0 []),
        ("b", CapacityLimiter.mk 2 0 [])]).regist_limiter "a"
        (CapacityLimiter.mk 9 0 []))._limiter) :=
  ⟨by decide, by decide,
    C6_regist_limiter_insert_or_replace
      (AsyncManager.mk [("a", CapacityLimiter.mk 1 0 []),
        ("b", CapacityLimiter.mk 2 0 [])]) "a" "b"
      (CapacityLimiter.mk 9 0 []) (by decide) (by decide)⟩

/-- C7: `unregist_limiter(name)` removes the mapping when present, and when
the name is absent it is a failure-free no-op leaving the registry
unchanged. -/
theorem C7_unregist_limiter_forgiving (m : AsyncManager) (name : String)
    (h : keysNodup m._limiter) :
    (m.unregist_limiter name).get_limiter name = Option.none ∧
    (m.get_limiter name = Option.none → m.unregist_limiter name = m) := by
  obtain ⟨d⟩ := m
  refine ⟨dictGet_dictPop_self d name h, fun habs => ?_⟩
  show AsyncManager.mk (dictPop d name) = AsyncManager.mk d
  rw [dictPop_eq_self_of_none d name habs]

theorem C7_unregist_limiter_forgiving_witness :
    keysNodup (AsyncManager.mk [("a", CapacityLimiter.mk 1 0 [])])._limiter ∧
    ((AsyncManager.mk [("a", CapacityLimiter.mk 1 0 [])]).unregist_limiter "c").get_limiter "c"
      = Option.none ∧
    (AsyncManager.mk [("a", CapacityLimiter.mk 1 0 [])]).unregist_limiter "c"
      = AsyncManager.mk [("a", CapacityLimiter.mk 1 0 [])] :=
  ⟨by decide,
    (C7_unregist_limiter_forgiving
      (AsyncManager.mk [("a", CapacityLimiter.mk 1 0 [])]) "c" (by decide)).1,
    (C7_unregist_limiter_forgiving
      (AsyncManager.mk [("a", CapacityLimiter.mk 1 0 [])]) "c" (by decide)).2 (by decide)⟩

/-- C8: the module-level convenience functions act on the one shared
`module_manager` instance, so a limiter registered through the module-level
`regist_limiter` is resolved by a wrapper created through the module-level
`to_async` with that name selector. -/
theorem C8_module_level_shared_instance (name : String) (l : CapacityLimiter)
    {E T : Type} (f : Except E T) :
    (mod_to_async_call (mod_regist_limiter module_manager name l)
      (LimiterSelector.name name) f).usedLimiter = some l ∧
    (mod_to_async_call (mod_regist_limiter module_manager name l)
      (LimiterSelector.name name) f).dispatched = true ∧
    (mod_to_async_call (mod_regist_limiter module_manager name l)
      (LimiterSelector.name name) f).result = run_sync f := by
  have hreg : (mod_regist_limiter module_manager name l).get_limiter name = some l :=
    dictGet_dictSet_self module_manager._limiter name l
  refine ⟨?_, ?_, ?_⟩ <;>
    simp [mod_to_async_call, to_async_call, resolveLimiter, hreg]

/-- C9: a selector value that is neither a string nor a `CapacityLimiter`
nor absent (for example an integer) is absorbed by the wrapper's `case _`
exactly like the absent selector: no error about it is raised and the
blocking function is dispatched ungated. -/
theorem C9_invalid_selector_treated_as_none (m : AsyncManager) (k : Int)
    {E T : Type} (f : Except E T) :
    to_async_call m (LimiterSelector.invalid k) f = to_async_call m LimiterSelector.none f ∧
    (to_async_call m (LimiterSelector.invalid k) f).usedLimiter = Option.none ∧
    (to_async_call m (LimiterSelector.invalid k) f).dispatched = true ∧
    (to_async_call m (LimiterSelector.invalid k) f).result = run_sync f :=
  ⟨rfl, rfl, rfl, rfl⟩

/-- C10: entering `create_limiter(name, capacity)` while `name` is already
registered to some limiter `L` replaces that association with the fresh
limiter, and on scope exit the name is removed entirely — the prior
association with `L` is not restored, so `get_limiter name` is absent even
though it was present before entry. -/
theorem C10_create_limiter_overwrites_and_removes (m : AsyncManager) (name : String)
    (max_worker : Nat) (L : CapacityLimiter) (ops : List RegOp) {E α : Type}
    (r : Except E α) (h1 : keysNodup m._limiter) (_h2 : m.get_limiter name = some L) :
    (m.regist_limiter name
      { capacity := max_worker, inFlight := 0, waitQueue := [] }).get_limiter name
      = some { capacity := max_worker, inFlight := 0, waitQueue := [] } ∧
    ((m.create_limiter name max_worker ops r).2).get_limiter name = Option.none :=
  ⟨dictGet_dictSet_self m._limiter name _,
    get_limiter_create_limiter_snd m name max_worker ops r h1⟩

theorem C10_create_limiter_overwrites_and_removes_witness :
    keysNodup (AsyncManager.mk [("a", CapacityLimiter.mk 5 0 [])])._limiter ∧
    (AsyncManager.mk [("a", CapacityLimiter.mk 5 0 [])]).get_limiter "a"
      = some (CapacityLimiter.mk 5 0 []) ∧
    (((AsyncManager.mk [("a", CapacityLimiter.mk 5 0 [])]).regist_limiter "a"
        { capacity := 7, inFlight := 0, waitQueue := [] }).get_limiter "a"
      = some { capacity := 7, inFlight := 0, waitQueue := [] } ∧
    (((AsyncManager.mk [("a", CapacityLimiter.mk 5 0 [])]).create_limiter "a" 7 []
        (Except.ok 1 : Except String Nat)).2).get_limiter "a" = Option.none) :=
  ⟨by decide, by decide,
    C10_create_limiter_overwrites_and_removes
      (AsyncManager.mk [("a", CapacityLimiter.mk 5 0 [])]) "a" 7
      (CapacityLimiter.mk 5 0 []) [] (Except.ok 1) (by decide) (by decide)⟩

end AsyncManagerModel
